import Mathlib

/-!
Verification of the spatial-viewer core (`src/components/viewer-controls.tsx`).

The development shallowly embeds the decoder and controller code:

* byte buffers are `List ℕ` (each entry a byte value, read modulo 256, as a
  `Uint8Array` view would present it);
* JavaScript numbers are modelled in exact arithmetic: `ℚ` for finite values,
  with `Option ℚ` where a `getFloat32`/`getFloat64` read can produce a
  non-finite value (`none` plays the role of `NaN`/`±Infinity`, so
  `Number.isFinite x` becomes `x.isSome`);
* angle-valued camera state, which involves `Math.PI`, lives in `ℝ`;
* `for` loops that walk records at a stride become structural recursions over
  an explicit iteration budget (`fuel`), which is always instantiated with a
  bound no smaller than the number of iterations the JS loop can perform.
-/

set_option maxRecDepth 100000
set_option exponentiation.threshold 1200

namespace Viewer

/-! ### Byte-level readers (`DataView` little-endian accessors) -/

/-- One byte of the buffer; out-of-range indices read 0 (all reads performed by
the embedded code are in-range, guarded by the same length checks the source
performs).  The `% 256` mirrors the `Uint8Array` byte range. -/
def byteAt (bytes : List ℕ) (i : ℕ) : ℕ := (bytes.getD i 0) % 256

/-- `DataView.getUint16(off, true)`. -/
def getUint16LE (bytes : List ℕ) (off : ℕ) : ℕ :=
  byteAt bytes off + 256 * byteAt bytes (off + 1)

/-- `DataView.getUint32(off, true)`. -/
def getUint32LE (bytes : List ℕ) (off : ℕ) : ℕ :=
  byteAt bytes off + 256 * byteAt bytes (off + 1) +
    65536 * byteAt bytes (off + 2) + 16777216 * byteAt bytes (off + 3)

/-- `DataView.getBigUint64(off, true)` (the LAS extended point count). -/
def getUint64LE (bytes : List ℕ) (off : ℕ) : ℕ :=
  getUint32LE bytes off + 4294967296 * getUint32LE bytes (off + 4)

/-- `DataView.getInt32(off, true)`: the unsigned 32-bit read, reinterpreted as
two's complement. -/
def getInt32LE (bytes : List ℕ) (off : ℕ) : ℤ :=
  let u := getUint32LE bytes off
  if 2 ^ 31 ≤ u then (u : ℤ) - 2 ^ 32 else (u : ℤ)

/-- Decode a 32-bit IEEE-754 pattern.  `none` stands for `NaN`/`±Infinity`
(exponent field all ones); finite values are exact rationals. -/
def decodeF32 (bits : ℕ) : Option ℚ :=
  let b : ℕ := bits % 2 ^ 32
  let sign : ℚ := if b / 2 ^ 31 = 1 then -1 else 1
  let e : ℕ := (b / 2 ^ 23) % 2 ^ 8
  let frac : ℕ := b % 2 ^ 23
  if e = 255 then none
  else if e = 0 then some (sign * (frac : ℚ) / ((2 ^ 149 : ℕ) : ℚ))
  else some (sign * ((2 ^ 23 + frac : ℕ) : ℚ) * ((2 ^ e : ℕ) : ℚ) / ((2 ^ 150 : ℕ) : ℚ))

/-- Decode a 64-bit IEEE-754 pattern, same conventions as `decodeF32`. -/
def decodeF64 (bits : ℕ) : Option ℚ :=
  let b : ℕ := bits % 2 ^ 64
  let sign : ℚ := if b / 2 ^ 63 = 1 then -1 else 1
  let e : ℕ := (b / 2 ^ 52) % 2 ^ 11
  let frac : ℕ := b % 2 ^ 52
  if e = 2047 then none
  else if e = 0 then some (sign * (frac : ℚ) / ((2 ^ 1074 : ℕ) : ℚ))
  else some (sign * ((2 ^ 52 + frac : ℕ) : ℚ) * ((2 ^ e : ℕ) : ℚ) / ((2 ^ 1075 : ℕ) : ℚ))

/-- `DataView.getFloat32(off, true)`. -/
def f32At (bytes : List ℕ) (off : ℕ) : Option ℚ :=
  decodeF32 (getUint32LE bytes off)

/-- `DataView.getFloat64(off, true)`. -/
def f64At (bytes : List ℕ) (off : ℕ) : Option ℚ :=
  decodeF64 (getUint64LE bytes off)

/-! ### Constants (`viewer-controls.tsx` lines 165–216) -/

def MAX_POINTS : ℕ := 5000000
def MAX_POSES : ℕ := 3000
def MAX_POSE_LOC_POINTS : ℕ := 250000
def MAX_POINT_MAGNITUDE : ℚ := 10 ^ 7

/-! ### Loop skeletons

The decoders all run `for (let i = 0; cond(i); i += step)` loops.  `walkIdx`
lists the indices such a loop visits, `fillLoop` is the record-collecting loop
body (skip invalid records, stop once `remaining` accepted records have been
written, mirroring `writeIndex >= sampledCount` break), and `probeLoop` is the
format-probe body counting valid decodes under the two interpretations. -/

/-- Indices visited by `for (let i = i0; cond i; i += step)`, with `fuel`
bounding the number of iterations (the probe loop has a genuine iteration cap;
the fill loops are always given fuel at least the worst-case iteration
count). -/
def walkIdx (cond : ℕ → Bool) (step : ℕ) : ℕ → ℕ → List ℕ
  | 0, _ => []
  | fuel + 1, i => if cond i then i :: walkIdx cond step fuel (i + step) else []

/-- The record-collecting loop: at each visited index, `read i` is `some`
accepted record or `none` (record rejected, loop continues); the loop breaks
once `remaining` records have been accepted. -/
def fillLoop {α : Type} (cond : ℕ → Bool) (read : ℕ → Option α) (step : ℕ) :
    ℕ → ℕ → ℕ → List α
  | 0, _, _ => []
  | fuel + 1, i, remaining =>
    if cond i then
      match read i with
      | some p =>
        if remaining ≤ 1 then [p]
        else p :: fillLoop cond read step fuel (i + step) (remaining - 1)
      | none => fillLoop cond read step fuel (i + step) remaining
    else []

/-- The format-probe loop: counts, over the visited sample indices, how many
records decode validly as floats (`.1`) and as fixed-point ints (`.2`). -/
def probeLoop (validF validI : ℕ → Bool) (cond : ℕ → Bool) (step : ℕ) :
    ℕ → ℕ → ℕ × ℕ
  | 0, _ => (0, 0)
  | fuel + 1, i =>
    if cond i then
      let rest := probeLoop validF validI cond step fuel (i + step)
      ((if validF i then 1 else 0) + rest.1, (if validI i then 1 else 0) + rest.2)
    else (0, 0)

theorem walkIdx_eq (cond : ℕ → Bool) (step fuel i : ℕ) :
    walkIdx cond step (fuel + 1) i =
      if cond i then i :: walkIdx cond step fuel (i + step) else [] := rfl

/-- `fillLoop` collects exactly the valid records among the visited indices,
truncated to the remaining budget: rejected records are skipped, they do not
abort the walk. -/
theorem fillLoop_eq {α : Type} (cond : ℕ → Bool) (read : ℕ → Option α)
    (step : ℕ) :
    ∀ (fuel i remaining : ℕ), 1 ≤ remaining →
      fillLoop cond read step fuel i remaining =
        ((walkIdx cond step fuel i).filterMap read).take remaining := by
  intro fuel
  induction fuel with
  | zero => intro i remaining _; simp [fillLoop, walkIdx]
  | succ fuel ih =>
    intro i remaining hrem
    rw [fillLoop, walkIdx_eq]
    by_cases hc : cond i
    · simp only [hc, if_true]
      cases hread : read i with
      | none => simpa [List.filterMap_cons, hread] using ih (i + step) remaining hrem
      | some p =>
        simp only [List.filterMap_cons, hread]
        by_cases h1 : remaining ≤ 1
        · have : remaining = 1 := le_antisymm h1 hrem
          subst this
          simp
        · rw [ih (i + step) (remaining - 1) (by omega), if_neg h1]
          have hr : remaining = (remaining - 1) + 1 := by omega
          rw [hr, List.take_succ_cons, Nat.add_sub_cancel]
    · simp [hc]

/-- `probeLoop` counts valid samples under each interpretation over the visited
probe indices. -/
theorem probeLoop_eq (validF validI cond : ℕ → Bool) (step : ℕ) :
    ∀ (fuel i : ℕ),
      probeLoop validF validI cond step fuel i =
        (((walkIdx cond step fuel i).countP validF),
          ((walkIdx cond step fuel i).countP validI)) := by
  intro fuel
  induction fuel with
  | zero => intro i; simp [probeLoop, walkIdx]
  | succ fuel ih =>
    intro i
    rw [probeLoop, walkIdx_eq]
    by_cases hc : cond i
    · simp only [hc, if_true, ih (i + step), List.countP_cons]
      simp [Prod.ext_iff, Nat.add_comm]
    · simp [hc, probeLoop, walkIdx]

theorem walkIdx_length_le (cond : ℕ → Bool) (step : ℕ) :
    ∀ (fuel i : ℕ), (walkIdx cond step fuel i).length ≤ fuel := by
  intro fuel
  induction fuel with
  | zero => intro i; simp [walkIdx]
  | succ fuel ih =>
    intro i
    rw [walkIdx_eq]
    by_cases hc : cond i
    · simpa [hc] using Nat.succ_le_succ (ih (i + step))
    · simp [hc]

/-! ### `parsePointCloud` (viewer-controls.tsx lines 233–353)

Record stride is fixed at 24 bytes; the first 12 bytes of a record hold the
three coordinate fields.  Local variables of the source function become the
`pc*` definitions below so the theorems can speak about them. -/

/-- The record-validity test shared by the probe and the fill pass:
`Number.isFinite` on each coordinate plus the `MAX_POINT_MAGNITUDE` bound. -/
def finiteLeMax (v : Option ℚ) : Bool :=
  match v with
  | some q => decide (|q| ≤ MAX_POINT_MAGNITUDE)
  | none => false

/-- Probe validity of a record decoded as three little-endian `f32`s. -/
def validFloatRec (bytes : List ℕ) (base : ℕ) : Bool :=
  finiteLeMax (f32At bytes base) && finiteLeMax (f32At bytes (base + 4)) &&
    finiteLeMax (f32At bytes (base + 8))

/-- A coordinate decoded as a little-endian `i32` divided by 1000. -/
def intCoord (bytes : List ℕ) (off : ℕ) : ℚ := (getInt32LE bytes off : ℚ) / 1000

/-- Probe validity of a record decoded as three fixed-point ints (an `i32 /
1000` is always finite, so only the magnitude bound matters). -/
def validIntRec (bytes : List ℕ) (base : ℕ) : Bool :=
  decide (|intCoord bytes base| ≤ MAX_POINT_MAGNITUDE) &&
    decide (|intCoord bytes (base + 4)| ≤ MAX_POINT_MAGNITUDE) &&
    decide (|intCoord bytes (base + 8)| ≤ MAX_POINT_MAGNITUDE)

/-- The fill pass's record read: decode under the chosen interpretation,
reject (return `none`) whenever a coordinate is non-finite or exceeds the
magnitude bound. -/
def readRecord (bytes : List ℕ) (useInt : Bool) (base : ℕ) :
    Option (ℚ × ℚ × ℚ) :=
  if useInt then
    let x := intCoord bytes base
    let y := intCoord bytes (base + 4)
    let z := intCoord bytes (base + 8)
    if |x| ≤ MAX_POINT_MAGNITUDE ∧ |y| ≤ MAX_POINT_MAGNITUDE ∧
        |z| ≤ MAX_POINT_MAGNITUDE then some (x, y, z) else none
  else
    match f32At bytes base, f32At bytes (base + 4), f32At bytes (base + 8) with
    | some x, some y, some z =>
      if |x| ≤ MAX_POINT_MAGNITUDE ∧ |y| ≤ MAX_POINT_MAGNITUDE ∧
          |z| ≤ MAX_POINT_MAGNITUDE then some (x, y, z) else none
    | _, _, _ => none

/-- Header sniff (lines 241–255): accept a leading little-endian u32 as a
declared record count only if it is positive, `4 + candidate * 24` fits in the
buffer, and that size is within one stride of the total size.  Returns
`(headerOffset, declaredCount)`. -/
def pcHeader (bytes : List ℕ) (hasHeaderCount : Bool) : ℕ × Option ℕ :=
  if hasHeaderCount = true ∧ 4 ≤ bytes.length then
    let candidate := getUint32LE bytes 0
    let expectedBytes := 4 + candidate * 24
    if 0 < candidate ∧ expectedBytes ≤ bytes.length ∧
        ((expectedBytes : ℤ) - (bytes.length : ℤ)).natAbs < 24 then
      (4, some candidate)
    else (0, none)
  else (0, none)

/-- `availableBytes = totalBytes - headerOffset`. -/
def pcAvailableBytes (bytes : List ℕ) (hasHeaderCount : Bool) : ℕ :=
  bytes.length - (pcHeader bytes hasHeaderCount).1

/-- `recordCount = min(declaredCount, floor(availableBytes / 24))` when a
count was declared, else `floor(availableBytes / 24)`. -/
def pcRecordCount (bytes : List ℕ) (hasHeaderCount : Bool) : ℕ :=
  match (pcHeader bytes hasHeaderCount).2 with
  | some d => min d (pcAvailableBytes bytes hasHeaderCount / 24)
  | none => pcAvailableBytes bytes hasHeaderCount / 24

/-- `downsampleStep = max(1, floor(recordCount / MAX_POINTS))`. -/
def pcStep (bytes : List ℕ) (hasHeaderCount : Bool) : ℕ :=
  max 1 (pcRecordCount bytes hasHeaderCount / MAX_POINTS)

/-- `sampledCount = max(1, floor(recordCount / step))`: the pre-sized output
capacity, which also caps the number of accepted records. -/
def pcSampledCount (bytes : List ℕ) (hasHeaderCount : Bool) : ℕ :=
  max 1 (pcRecordCount bytes hasHeaderCount / pcStep bytes hasHeaderCount)

/-- `probeSamples = min(1000, recordCount)`. -/
def pcProbeSamples (bytes : List ℕ) (hasHeaderCount : Bool) : ℕ :=
  min 1000 (pcRecordCount bytes hasHeaderCount)

/-- `probeStride = max(1, floor(recordCount / probeSamples))`. -/
def pcProbeStride (bytes : List ℕ) (hasHeaderCount : Bool) : ℕ :=
  max 1 (pcRecordCount bytes hasHeaderCount / pcProbeSamples bytes hasHeaderCount)

/-- The format probe (lines 270–304): `(floatValid, intValid)` counts over up
to `probeSamples` records at `probeStride` spacing. -/
def pcProbe (bytes : List ℕ) (hasHeaderCount : Bool) : ℕ × ℕ :=
  probeLoop
    (fun i => validFloatRec bytes ((pcHeader bytes hasHeaderCount).1 + i * 24))
    (fun i => validIntRec bytes ((pcHeader bytes hasHeaderCount).1 + i * 24))
    (fun i => decide (i < pcRecordCount bytes hasHeaderCount))
    (pcProbeStride bytes hasHeaderCount)
    (pcProbeSamples bytes hasHeaderCount) 0

/-- `useInt = intValid > floatValid` (line 306). -/
def pcUseInt (bytes : List ℕ) (hasHeaderCount : Bool) : Bool :=
  decide ((pcProbe bytes hasHeaderCount).1 < (pcProbe bytes hasHeaderCount).2)

/-- The fill pass's read at record index `i`. -/
def pcRead (bytes : List ℕ) (hasHeaderCount : Bool) (i : ℕ) :
    Option (ℚ × ℚ × ℚ) :=
  readRecord bytes (pcUseInt bytes hasHeaderCount)
    ((pcHeader bytes hasHeaderCount).1 + i * 24)

/-- The accepted records of the fill pass (lines 310–336): walk indices
`0, step, 2·step, …` below `recordCount`, skip rejected records, stop once
`sampledCount` records are accepted. -/
def pcAccepted (bytes : List ℕ) (hasHeaderCount : Bool) : List (ℚ × ℚ × ℚ) :=
  fillLoop (fun i => decide (i < pcRecordCount bytes hasHeaderCount))
    (pcRead bytes hasHeaderCount) (pcStep bytes hasHeaderCount)
    (pcRecordCount bytes hasHeaderCount) 0 (pcSampledCount bytes hasHeaderCount)

/-- Flatten accepted `(x, y, z)` records into the positions buffer layout. -/
def flattenTriples (l : List (ℚ × ℚ × ℚ)) : List ℚ :=
  l.flatMap (fun p => [p.1, p.2.1, p.2.2])

structure PointCloudMetadata where
  headerOffset : ℕ
  declaredCount : Option ℕ
  recordCount : ℕ
  downsampleStep : ℕ
  probeFloatHits : ℕ
  probeIntHits : ℕ
  usedIntegerMode : Bool
  acceptedPoints : ℕ
  deriving DecidableEq, Repr

structure ParsedPointCloud where
  positions : List ℚ
  colors : Option (List ℚ)
  metadata : PointCloudMetadata
  deriving DecidableEq, Repr

/-- `parsePointCloud(buffer, hasHeaderCount)`: `none` models the `null`
returns (buffer shorter than one record past the header, or zero accepted
records). -/
def parsePointCloud (bytes : List ℕ) (hasHeaderCount : Bool) :
    Option ParsedPointCloud :=
  if pcAvailableBytes bytes hasHeaderCount < 24 then none
  else if pcAvailableBytes bytes hasHeaderCount / 24 = 0 then none
  else if (pcAccepted bytes hasHeaderCount).length = 0 then none
  else
    some
      { positions := flattenTriples (pcAccepted bytes hasHeaderCount)
        colors := none
        metadata :=
          { headerOffset := (pcHeader bytes hasHeaderCount).1
            declaredCount := (pcHeader bytes hasHeaderCount).2
            recordCount := pcRecordCount bytes hasHeaderCount
            downsampleStep := pcStep bytes hasHeaderCount
            probeFloatHits := (pcProbe bytes hasHeaderCount).1
            probeIntHits := (pcProbe bytes hasHeaderCount).2
            usedIntegerMode := pcUseInt bytes hasHeaderCount
            acceptedPoints := (pcAccepted bytes hasHeaderCount).length } }

/-! ### `parseLasPointCloud` (viewer-controls.tsx lines 355–461)

Header fields are read at the fixed LAS public-header offsets.  The
`new TextDecoder().decode(...)` signature comparison against `"LASF"` is a
comparison of bytes 0–3 with the ASCII codes 76, 65, 83, 70.  The
`getBigUint64` feature test is modelled as always available. -/

def lasStride (bytes : List ℕ) : ℕ := getUint16LE bytes 105

def lasPointFormat (bytes : List ℕ) : ℕ := byteAt bytes 104 % 16

def lasOffsetToData (bytes : List ℕ) : ℕ := getUint32LE bytes 96

/-- Point count: legacy u32 at 107, replaced by the extended u64 at 247 when
the legacy count is 0, the buffer is at least 255 bytes, and the extended
count is positive. -/
def lasPointCount (bytes : List ℕ) : ℕ :=
  let legacy := getUint32LE bytes 107
  if legacy = 0 ∧ 255 ≤ bytes.length ∧ 0 < getUint64LE bytes 247 then
    getUint64LE bytes 247
  else legacy

def lasAvailableRecords (bytes : List ℕ) : ℕ :=
  (bytes.length - lasOffsetToData bytes) / lasStride bytes

def lasTotalRecords (bytes : List ℕ) : ℕ :=
  min (lasPointCount bytes) (lasAvailableRecords bytes)

def lasDownsampleStep (bytes : List ℕ) : ℕ :=
  max 1 (lasTotalRecords bytes / MAX_POINTS)

def lasSampledCount (bytes : List ℕ) : ℕ :=
  max 1 (lasTotalRecords bytes / lasDownsampleStep bytes)

def lasHasColor (bytes : List ℕ) : Bool :=
  decide (lasPointFormat bytes = 2 ∨ lasPointFormat bytes = 3)

def lasColorOffset (bytes : List ℕ) : ℕ :=
  if lasPointFormat bytes = 3 then 28 else 20

/-- World coordinate `raw_i32 * scale + offset` in JS double arithmetic: the
result is finite exactly when both header doubles are finite (a finite
overflow to `±Infinity` would in any case exceed the magnitude bound and be
rejected, matching the JS guard). -/
def lasCoord (v : ℤ) (scale offset : Option ℚ) : Option ℚ :=
  match scale, offset with
  | some s, some o => some ((v : ℚ) * s + o)
  | _, _ => none

/-- The color triple written for a record: three u16 channels normalised by
`1/65535` and clamped to 1 when the color bytes are in range, else the
pre-initialised zeros of the output buffer. -/
def lasColorTriple (bytes : List ℕ) (base : ℕ) : ℚ × ℚ × ℚ :=
  if base + lasColorOffset bytes + 6 ≤ bytes.length then
    (min 1 ((getUint16LE bytes (base + lasColorOffset bytes) : ℚ) / 65535),
      min 1 ((getUint16LE bytes (base + lasColorOffset bytes + 2) : ℚ) / 65535),
      min 1 ((getUint16LE bytes (base + lasColorOffset bytes + 4) : ℚ) / 65535))
  else (0, 0, 0)

/-- Record read of the LAS fill pass, at record index `i`: `none` when the
record is rejected by the finiteness/magnitude guard.  The value carries the
position triple and the color triple written alongside it. -/
def lasRead (bytes : List ℕ) (i : ℕ) : Option ((ℚ × ℚ × ℚ) × (ℚ × ℚ × ℚ)) :=
  let base := lasOffsetToData bytes + i * lasStride bytes
  let x := lasCoord (getInt32LE bytes base) (f64At bytes 131) (f64At bytes 155)
  let y := lasCoord (getInt32LE bytes (base + 4)) (f64At bytes 139) (f64At bytes 163)
  let z := lasCoord (getInt32LE bytes (base + 8)) (f64At bytes 147) (f64At bytes 171)
  match x, y, z with
  | some a, some b, some c =>
    if |a| ≤ MAX_POINT_MAGNITUDE ∧ |b| ≤ MAX_POINT_MAGNITUDE ∧
        |c| ≤ MAX_POINT_MAGNITUDE then
      some ((a, b, c), lasColorTriple bytes base)
    else none
  | _, _, _ => none

/-- Loop guard of the LAS fill pass: index in range and the 12 coordinate
bytes inside the buffer (`if (base + 12 > buffer.byteLength) break`). -/
def lasCond (bytes : List ℕ) (i : ℕ) : Bool :=
  decide (i < lasTotalRecords bytes) &&
    decide (lasOffsetToData bytes + i * lasStride bytes + 12 ≤ bytes.length)

def lasAccepted (bytes : List ℕ) : List ((ℚ × ℚ × ℚ) × (ℚ × ℚ × ℚ)) :=
  fillLoop (lasCond bytes) (lasRead bytes) (lasDownsampleStep bytes)
    (lasTotalRecords bytes) 0 (lasSampledCount bytes)

/-- `parseLasPointCloud(buffer)`. -/
def parseLasPointCloud (bytes : List ℕ) : Option ParsedPointCloud :=
  if bytes.length < 227 then none
  else if ¬(byteAt bytes 0 = 76 ∧ byteAt bytes 1 = 65 ∧ byteAt bytes 2 = 83 ∧
      byteAt bytes 3 = 70) then none
  else if lasStride bytes = 0 ∨ bytes.length < lasOffsetToData bytes + lasStride bytes
    then none
  else if lasPointCount bytes = 0 then none
  else if lasTotalRecords bytes = 0 then none
  else if (lasAccepted bytes).length = 0 then none
  else
    some
      { positions := flattenTriples ((lasAccepted bytes).map (·.1))
        colors :=
          if lasHasColor bytes then
            some (flattenTriples ((lasAccepted bytes).map (·.2)))
          else none
        metadata :=
          { headerOffset := lasOffsetToData bytes
            declaredCount := some (lasPointCount bytes)
            recordCount := lasTotalRecords bytes
            downsampleStep := lasDownsampleStep bytes
            probeFloatHits := 0
            probeIntHits := 0
            usedIntegerMode := false
            acceptedPoints := (lasAccepted bytes).length } }

/-! ### `buildPoseGroup`, binary branch (viewer-controls.tsx lines 463–520)

A record is 13 little-endian `f32`s; entry 0 is an index/time field, entries
1–12 are placed into the 3×4 transform of one axes marker.  The result models
the group as the list of retained records' 12 matrix entries (`none` marks a
non-finite float, which the source stores unchecked). -/

def poseRecords (bytes : List ℕ) : List (List (Option ℚ)) :=
  (List.range (bytes.length / 52)).map fun i =>
    (List.range 13).map fun j => f32At bytes (i * 52 + j * 4)

/-- `step = max(1, floor(records.length / MAX_POSES))`. -/
def poseStep (bytes : List ℕ) : ℕ :=
  max 1 ((poseRecords bytes).length / MAX_POSES)

/-- One marker per record retained by the downsampling walk, carrying the
record's 12 matrix entries (`slice(1, 13)`). -/
def poseMarkers (bytes : List ℕ) : List (List (Option ℚ)) :=
  (walkIdx (fun i => decide (i < (poseRecords bytes).length)) (poseStep bytes)
      (poseRecords bytes).length 0).map
    fun i => (((poseRecords bytes).getD i []).drop 1).take 12

def buildPoseGroup (bytes : List ℕ) : Option (List (List (Option ℚ))) :=
  if bytes.length < 52 then none
  else if bytes.length / 52 = 0 then none
  else if (poseRecords bytes).length = 0 then none
  else some (poseMarkers bytes)

/-! ### Structural lemmas about the decoders -/

/-- Indices visited by the point-cloud fill pass. -/
def pcWalk (bytes : List ℕ) (hasHeaderCount : Bool) : List ℕ :=
  walkIdx (fun i => decide (i < pcRecordCount bytes hasHeaderCount))
    (pcStep bytes hasHeaderCount) (pcRecordCount bytes hasHeaderCount) 0

/-- The records of the walked indices that pass the finiteness/magnitude
check, in walk order. -/
def pcValidRecords (bytes : List ℕ) (hasHeaderCount : Bool) : List (ℚ × ℚ × ℚ) :=
  (pcWalk bytes hasHeaderCount).filterMap (pcRead bytes hasHeaderCount)

/-- Indices visited by the LAS fill pass. -/
def lasWalk (bytes : List ℕ) : List ℕ :=
  walkIdx (lasCond bytes) (lasDownsampleStep bytes) (lasTotalRecords bytes) 0

def lasValidRecords (bytes : List ℕ) : List ((ℚ × ℚ × ℚ) × (ℚ × ℚ × ℚ)) :=
  (lasWalk bytes).filterMap (lasRead bytes)

theorem pcSampledCount_pos (bytes : List ℕ) (h : Bool) :
    1 ≤ pcSampledCount bytes h := le_max_left 1 _

theorem lasSampledCount_pos (bytes : List ℕ) : 1 ≤ lasSampledCount bytes :=
  le_max_left 1 _

/-- The fill pass keeps exactly the valid records among the walked indices,
up to the output capacity: an invalid record is skipped, never aborts. -/
theorem pcAccepted_eq (bytes : List ℕ) (h : Bool) :
    pcAccepted bytes h = (pcValidRecords bytes h).take (pcSampledCount bytes h) :=
  fillLoop_eq _ _ _ _ _ _ (pcSampledCount_pos bytes h)

theorem lasAccepted_eq (bytes : List ℕ) :
    lasAccepted bytes = (lasValidRecords bytes).take (lasSampledCount bytes) :=
  fillLoop_eq _ _ _ _ _ _ (lasSampledCount_pos bytes)

theorem flattenTriples_length (l : List (ℚ × ℚ × ℚ)) :
    (flattenTriples l).length = 3 * l.length := by
  induction l with
  | nil => rfl
  | cons p l ih => simp [flattenTriples, List.flatMap_cons] at ih ⊢; omega

theorem mem_flattenTriples {q : ℚ} {l : List (ℚ × ℚ × ℚ)}
    (hq : q ∈ flattenTriples l) :
    ∃ p ∈ l, q = p.1 ∨ q = p.2.1 ∨ q = p.2.2 := by
  induction l with
  | nil => simp [flattenTriples] at hq
  | cons p l ih =>
    simp only [flattenTriples, List.flatMap_cons, List.mem_append] at hq
    rcases hq with hq | hq
    · exact ⟨p, List.mem_cons_self p l, by simpa using hq⟩
    · obtain ⟨p', hp', heq⟩ := ih hq
      exact ⟨p', List.mem_cons_of_mem p hp', heq⟩

/-- A record accepted by the point-cloud read is within the magnitude bound. -/
theorem readRecord_bounds {bytes : List ℕ} {useInt : Bool} {base : ℕ}
    {x y z : ℚ} (hr : readRecord bytes useInt base = some (x, y, z)) :
    |x| ≤ MAX_POINT_MAGNITUDE ∧ |y| ≤ MAX_POINT_MAGNITUDE ∧
      |z| ≤ MAX_POINT_MAGNITUDE := by
  unfold readRecord at hr
  by_cases hu : useInt
  · simp only [hu, if_true] at hr
    split at hr
    · rename_i hb
      obtain ⟨h1, h2, h3⟩ := hb
      cases hr
      exact ⟨h1, h2, h3⟩
    · exact absurd hr (by simp)
  · simp only [hu, if_false, Bool.false_eq_true] at hr
    rcases hx : f32At bytes base with _ | a <;>
      rcases hy : f32At bytes (base + 4) with _ | b <;>
        rcases hz : f32At bytes (base + 8) with _ | c <;>
          simp only [hx, hy, hz] at hr
    all_goals try exact Option.noConfusion hr
    split at hr
    · rename_i hb
      obtain ⟨h1, h2, h3⟩ := hb
      cases hr
      exact ⟨h1, h2, h3⟩
    · exact absurd hr (by simp)

/-- A record accepted by the LAS read is within the magnitude bound. -/
theorem lasRead_bounds {bytes : List ℕ} {i : ℕ} {p c : ℚ × ℚ × ℚ}
    (hr : lasRead bytes i = some (p, c)) :
    |p.1| ≤ MAX_POINT_MAGNITUDE ∧ |p.2.1| ≤ MAX_POINT_MAGNITUDE ∧
      |p.2.2| ≤ MAX_POINT_MAGNITUDE := by
  unfold lasRead at hr
  rcases hx : lasCoord (getInt32LE bytes (lasOffsetToData bytes + i * lasStride bytes))
      (f64At bytes 131) (f64At bytes 155) with _ | a <;>
    rcases hy : lasCoord (getInt32LE bytes (lasOffsetToData bytes + i * lasStride bytes + 4))
        (f64At bytes 139) (f64At bytes 163) with _ | b <;>
      rcases hz : lasCoord (getInt32LE bytes (lasOffsetToData bytes + i * lasStride bytes + 8))
          (f64At bytes 147) (f64At bytes 171) with _ | c' <;>
        simp only [hx, hy, hz] at hr
  all_goals try exact Option.noConfusion hr
  split at hr
  · rename_i hb
    obtain ⟨h1, h2, h3⟩ := hb
    cases hr
    exact ⟨h1, h2, h3⟩
  · exact absurd hr (by simp)

/-! ### C2 arithmetic: what the `max 1 (n / max 1 (n / B))` downsampling
actually bounds -/

/-- The pre-sized output capacity `max 1 (n / max 1 (n / B))` is strictly
below `2 * B` — but not below `B`: for `n = B + 1` the step stays 1 and the
capacity is `B + 1`. -/
theorem sampled_lt_two_mul (B n : ℕ) (hB : 1 ≤ B) :
    max 1 (n / max 1 (n / B)) < 2 * B := by
  have hs1 : 1 ≤ max 1 (n / B) := le_max_left _ _
  have h2 : n < (n / B + 1) * B :=
    (Nat.div_lt_iff_lt_mul (by omega : 0 < B)).mp (Nat.lt_succ_self _)
  have h3 : n < 2 * B * max 1 (n / B) := by
    have hle : n / B ≤ max 1 (n / B) := le_max_right _ _
    nlinarith
  have h4 : n / max 1 (n / B) < 2 * B :=
    (Nat.div_lt_iff_lt_mul (by omega : 0 < max 1 (n / B))).mpr h3
  exact max_lt (by omega) h4

/-- The pose walk visits fewer than `2 * P` indices: `ceil(total / step)` with
`step = max 1 (total / P)` stays strictly below twice the budget. -/
theorem pose_count_lt (P total : ℕ) (hP : 1 ≤ P) :
    (total + (max 1 (total / P) - 1)) / max 1 (total / P) < 2 * P := by
  have hs1 : 1 ≤ max 1 (total / P) := le_max_left _ _
  have hle : total / P ≤ max 1 (total / P) := le_max_right _ _
  have h2 : total < (total / P + 1) * P :=
    (Nat.div_lt_iff_lt_mul (by omega : 0 < P)).mp (Nat.lt_succ_self _)
  have h4 : total < (max 1 (total / P) + 1) * P :=
    lt_of_lt_of_le h2 (Nat.mul_le_mul_right P (by omega))
  have h6 : 1 * (P - 1) ≤ max 1 (total / P) * (P - 1) :=
    Nat.mul_le_mul_right _ hs1
  have h7 : max 1 (total / P) * (P - 1) + max 1 (total / P) * 1 =
      max 1 (total / P) * P := by
    rw [← Nat.mul_add]
    congr 1
    omega
  have h8 : (max 1 (total / P) + 1) * P = max 1 (total / P) * P + P := by ring
  have h9 : 2 * P * max 1 (total / P) = 2 * (max 1 (total / P) * P) := by ring
  have h3 : total + (max 1 (total / P) - 1) < 2 * P * max 1 (total / P) := by
    omega
  exact (Nat.div_lt_iff_lt_mul (by omega : 0 < max 1 (total / P))).mpr h3

/-- Length of a `for (i = i0; i < limit; i += s)` walk. -/
theorem walk_length_le (limit s : ℕ) (hs : 1 ≤ s) :
    ∀ (fuel i : ℕ),
      (walkIdx (fun j => decide (j < limit)) s fuel i).length ≤
        (limit - i + (s - 1)) / s := by
  intro fuel
  induction fuel with
  | zero => intro i; simp [walkIdx]
  | succ fuel ih =>
    intro i
    rw [walkIdx_eq]
    by_cases hc : i < limit
    · have hb : decide (i < limit) = true := by simpa using hc
      simp only [hb, if_true, List.length_cons]
      have hrec := ih (i + s)
      rcases Nat.lt_or_ge (i + s) limit with hlt | hge
      · have heq : limit - i + (s - 1) = (limit - (i + s) + (s - 1)) + s := by omega
        rw [heq, Nat.add_div_right _ (by omega)]
        omega
      · have h0 : (limit - (i + s) + (s - 1)) / s = 0 := Nat.div_eq_of_lt (by omega)
        have h1 : 1 ≤ (limit - i + (s - 1)) / s := by
          rw [Nat.le_div_iff_mul_le (by omega : 0 < s)]
          omega
        omega
    · simp [hc]

/-- Exact walk length at unit step. -/
theorem walk_length_step_one (limit : ℕ) :
    ∀ (fuel i : ℕ),
      (walkIdx (fun j => decide (j < limit)) 1 fuel i).length =
        min fuel (limit - i) := by
  intro fuel
  induction fuel with
  | zero => intro i; simp [walkIdx]
  | succ fuel ih =>
    intro i
    rw [walkIdx_eq]
    by_cases hc : i < limit
    · have hb : decide (i < limit) = true := by simpa using hc
      simp only [hb, if_true, List.length_cons, ih (i + 1)]
      omega
    · have hb : decide (i < limit) = false := by simpa using hc
      simp only [hb, Bool.false_eq_true, if_false, List.length_nil]
      omega

/-! ### All-zero buffers: every record decodes to the origin and is valid
under both probe interpretations -/

theorem getD_replicate_zero (n i : ℕ) : (List.replicate n (0 : ℕ)).getD i 0 = 0 := by
  rcases Nat.lt_or_ge i n with h | h
  · rw [List.getD_eq_getElem _ _ (by simpa using h)]
    simp
  · rw [List.getD_eq_default]
    simpa using h

theorem byteAt_replicate_zero (n i : ℕ) : byteAt (List.replicate n 0) i = 0 := by
  simp [byteAt, getD_replicate_zero]

theorem getUint32LE_replicate_zero (n off : ℕ) :
    getUint32LE (List.replicate n 0) off = 0 := by
  simp [getUint32LE, byteAt_replicate_zero]

theorem decodeF32_zero : decodeF32 0 = some 0 := by with_unfolding_all decide

theorem f32At_replicate_zero (n off : ℕ) :
    f32At (List.replicate n 0) off = some 0 := by
  rw [f32At, getUint32LE_replicate_zero, decodeF32_zero]

theorem getInt32LE_replicate_zero (n off : ℕ) :
    getInt32LE (List.replicate n 0) off = 0 := by
  rw [getInt32LE, getUint32LE_replicate_zero]
  decide

theorem validFloatRec_replicate_zero (n base : ℕ) :
    validFloatRec (List.replicate n 0) base = true := by
  rw [validFloatRec, f32At_replicate_zero, f32At_replicate_zero,
    f32At_replicate_zero]
  with_unfolding_all decide

theorem validIntRec_replicate_zero (n base : ℕ) :
    validIntRec (List.replicate n 0) base = true := by
  rw [validIntRec]
  rw [show intCoord (List.replicate n 0) base = 0 by
        rw [intCoord, getInt32LE_replicate_zero]; with_unfolding_all decide,
    show intCoord (List.replicate n 0) (base + 4) = 0 by
        rw [intCoord, getInt32LE_replicate_zero]; with_unfolding_all decide,
    show intCoord (List.replicate n 0) (base + 8) = 0 by
        rw [intCoord, getInt32LE_replicate_zero]; with_unfolding_all decide]
  with_unfolding_all decide

theorem readRecord_replicate_zero (n : ℕ) (useInt : Bool) (base : ℕ) :
    readRecord (List.replicate n 0) useInt base = some (0, 0, 0) := by
  cases useInt with
  | false =>
    rw [readRecord]
    simp only [Bool.false_eq_true, if_false]
    rw [f32At_replicate_zero, f32At_replicate_zero, f32At_replicate_zero]
    with_unfolding_all decide
  | true =>
    rw [readRecord]
    simp only [if_true]
    rw [show intCoord (List.replicate n 0) base = 0 by
          rw [intCoord, getInt32LE_replicate_zero]; with_unfolding_all decide,
      show intCoord (List.replicate n 0) (base + 4) = 0 by
          rw [intCoord, getInt32LE_replicate_zero]; with_unfolding_all decide,
      show intCoord (List.replicate n 0) (base + 8) = 0 by
          rw [intCoord, getInt32LE_replicate_zero]; with_unfolding_all decide]
    with_unfolding_all decide

theorem length_filterMap_all_some {α β : Type} (l : List α) (rd : α → Option β)
    (hall : ∀ a ∈ l, (rd a).isSome) : (l.filterMap rd).length = l.length := by
  induction l with
  | nil => rfl
  | cons a l ih =>
    have ha := hall a (List.mem_cons_self a l)
    rcases hrd : rd a with _ | v
    · rw [hrd] at ha
      simp at ha
    · simp [List.filterMap_cons, hrd,
        ih (fun b hb => hall b (List.mem_cons_of_mem a hb))]

/-- On an all-zero buffer the probe counts agree, so float mode is kept. -/
theorem pcUseInt_replicate_zero (n : ℕ) :
    pcUseInt (List.replicate n 0) false = false := by
  have hfe : (fun i =>
      validFloatRec (List.replicate n 0)
        ((pcHeader (List.replicate n 0) false).1 + i * 24)) =
      fun _ : ℕ => true :=
    funext fun i => validFloatRec_replicate_zero _ _
  have hge : (fun i =>
      validIntRec (List.replicate n 0)
        ((pcHeader (List.replicate n 0) false).1 + i * 24)) =
      fun _ : ℕ => true :=
    funext fun i => validIntRec_replicate_zero _ _
  rw [pcUseInt, pcProbe, probeLoop_eq, hfe, hge]
  simp

theorem pcHeader_false (bytes : List ℕ) : pcHeader bytes false = (0, none) := by
  unfold pcHeader
  rw [if_neg]
  intro hcon
  exact absurd hcon.1 (by simp)

/-- On an all-zero buffer of exactly `k` records (with `k < 2·MAX_POINTS`, so
the downsample step stays 1) the binary decoder accepts all `k` records. -/
theorem pc_all_zero_accepted (k : ℕ) (hk : 1 ≤ k) (hk2 : k / MAX_POINTS ≤ 1) :
    Option.map (fun r => r.metadata.acceptedPoints)
      (parsePointCloud (List.replicate (24 * k) 0) false) = some k := by
  have hav : pcAvailableBytes (List.replicate (24 * k) 0) false = 24 * k := by
    rw [pcAvailableBytes, pcHeader_false, List.length_replicate]
    rfl
  have hrc : pcRecordCount (List.replicate (24 * k) 0) false = k := by
    rw [pcRecordCount, pcHeader_false]
    show pcAvailableBytes (List.replicate (24 * k) 0) false / 24 = k
    rw [hav]
    exact Nat.mul_div_cancel_left k (by norm_num)
  have hstep : pcStep (List.replicate (24 * k) 0) false = 1 := by
    rw [pcStep, hrc]
    exact max_eq_left hk2
  have hsam : pcSampledCount (List.replicate (24 * k) 0) false = k := by
    rw [pcSampledCount, hrc, hstep, Nat.div_one]
    exact max_eq_right hk
  have hwalk : (pcWalk (List.replicate (24 * k) 0) false).length = k := by
    rw [pcWalk]
    simp only [hrc, hstep]
    rw [walk_length_step_one]
    omega
  have hvalid : (pcValidRecords (List.replicate (24 * k) 0) false).length = k := by
    rw [pcValidRecords, length_filterMap_all_some]
    · exact hwalk
    · intro a _
      rw [pcRead, pcUseInt_replicate_zero, readRecord_replicate_zero]
      rfl
  have hacc : (pcAccepted (List.replicate (24 * k) 0) false).length = k := by
    rw [pcAccepted_eq, List.length_take, hvalid, hsam]
    omega
  rw [parsePointCloud, if_neg (by rw [hav]; omega),
    if_neg (by show ¬(pcAvailableBytes (List.replicate (24 * k) 0) false / 24 = 0)
               rw [hav, Nat.mul_div_cancel_left k (by norm_num : 0 < 24)]
               omega),
    if_neg (by rw [hacc]; omega)]
  show some ((pcAccepted (List.replicate (24 * k) 0) false).length) = some k
  rw [hacc]

theorem poseRecords_length (bytes : List ℕ) :
    (poseRecords bytes).length = bytes.length / 52 := by
  simp [poseRecords]

/-- On an all-zero pose buffer of exactly `k` records (with `k < 2·MAX_POSES`,
so the downsample step stays 1) the pose decoder emits all `k` markers. -/
theorem pose_all_zero_markers (k : ℕ) (hk : 1 ≤ k) (hk2 : k / MAX_POSES ≤ 1) :
    Option.map List.length (buildPoseGroup (List.replicate (52 * k) 0)) = some k := by
  have hrecs : (poseRecords (List.replicate (52 * k) 0)).length = k := by
    rw [poseRecords_length, List.length_replicate]
    exact Nat.mul_div_cancel_left k (by norm_num)
  have hstep : poseStep (List.replicate (52 * k) 0) = 1 := by
    rw [poseStep, hrecs]
    exact max_eq_left hk2
  have hmark : (poseMarkers (List.replicate (52 * k) 0)).length = k := by
    rw [poseMarkers, List.length_map]
    simp only [hrecs, hstep]
    rw [walk_length_step_one]
    omega
  rw [buildPoseGroup, if_neg (by rw [List.length_replicate]; omega),
    if_neg (by rw [List.length_replicate, Nat.mul_div_cancel_left k (by norm_num : 0 < 52)]
               omega),
    if_neg (by rw [hrecs]; omega)]
  show some ((poseMarkers (List.replicate (52 * k) 0)).length) = some k
  rw [hmark]

/-! ### C2 -/

/-- C2 (as stated) is false; this closed theorem exhibits the violations: a
120,000,024-byte all-zero buffer holds 5,000,001 records, the downsample step
`max(1, floor(5000001 / 5000000))` is 1, and the decoder returns 5,000,001
points — strictly more than `MAX_POINTS`; likewise a 156,052-byte pose buffer
yields 3001 markers, exceeding `MAX_POSES`. -/
theorem C2_point_budget_counterexample :
    (Option.map (fun r => r.metadata.acceptedPoints)
        (parsePointCloud (List.replicate 120000024 0) false) = some 5000001 ∧
      MAX_POINTS < 5000001) ∧
    (Option.map List.length (buildPoseGroup (List.replicate 156052 0)) = some 3001 ∧
      MAX_POSES < 3001) := by
  refine ⟨⟨?_, by decide⟩, ⟨?_, by decide⟩⟩
  · have h := pc_all_zero_accepted 5000001 (by norm_num) (by decide)
    rwa [show (24 * 5000001 : ℕ) = 120000024 by norm_num] at h
  · have h := pose_all_zero_markers 3001 (by norm_num) (by decide)
    rwa [show (52 * 3001 : ℕ) = 156052 by norm_num] at h

/-- C2 (amended): the downsampling caps each decoder's output below twice its
budget — at most `2·MAX_POINTS - 1` points and `2·MAX_POSES - 1` pose markers
— and this is what `step = max(1, floor(n / BUDGET))` actually guarantees
(the budget itself can be exceeded by up to a factor of two, per the
counterexample). -/
theorem C2_point_budget_amended :
    (∀ (bytes : List ℕ) (h : Bool) (r : ParsedPointCloud),
        parsePointCloud bytes h = some r →
          r.metadata.acceptedPoints < 2 * MAX_POINTS) ∧
    (∀ (bytes : List ℕ) (g : List (List (Option ℚ))),
        buildPoseGroup bytes = some g → g.length < 2 * MAX_POSES) := by
  constructor
  · intro bytes h r hp
    unfold parsePointCloud at hp
    iterate 3 (split at hp; · exact absurd hp (by simp))
    cases hp
    show (pcAccepted bytes h).length < 2 * MAX_POINTS
    calc (pcAccepted bytes h).length
        ≤ pcSampledCount bytes h := by
          rw [pcAccepted_eq, List.length_take]
          omega
      _ < 2 * MAX_POINTS := by
          rw [pcSampledCount, pcStep]
          exact sampled_lt_two_mul MAX_POINTS (pcRecordCount bytes h) (by decide)
  · intro bytes g hp
    unfold buildPoseGroup at hp
    iterate 3 (split at hp; · exact absurd hp (by simp))
    cases hp
    show (poseMarkers bytes).length < 2 * MAX_POSES
    rw [poseMarkers, List.length_map]
    calc (walkIdx (fun i => decide (i < (poseRecords bytes).length))
          (poseStep bytes) (poseRecords bytes).length 0).length
        ≤ ((poseRecords bytes).length - 0 + (poseStep bytes - 1)) / poseStep bytes :=
          walk_length_le _ _ (le_max_left _ _) _ _
      _ < 2 * MAX_POSES := by
          rw [Nat.sub_zero, poseStep]
          exact pose_count_lt MAX_POSES (poseRecords bytes).length (by decide)

/-- Closed instance of the amended C2 at a one-record buffer for each
decoder. -/
theorem C2_point_budget_amended_witness :
    (PointCloudMetadata.mk 0 none 1 1 1 1 false 1).acceptedPoints <
        2 * MAX_POINTS ∧
      ([List.replicate 12 (some (0 : ℚ))].length < 2 * MAX_POSES) := by
  constructor
  · exact C2_point_budget_amended.1 (List.replicate 24 0) false
      ⟨[0, 0, 0], none, ⟨0, none, 1, 1, 1, 1, false, 1⟩⟩
      (by with_unfolding_all decide)
  · exact C2_point_budget_amended.2 (List.replicate 52 0)
      [List.replicate 12 (some 0)] (by with_unfolding_all decide)

/-! ### Concrete demo buffers -/

/-- Little-endian IEEE-754 double `1.0`. -/
def f64one : List ℕ := [0, 0, 0, 0, 0, 0, 240, 63]

/-- A 247-byte LAS buffer: `LASF` signature, point format 0, record stride 20,
offset-to-point-data 227, legacy point count 2, unit scales, zero offsets, and
a single all-zero record — so the declared two-record data region does NOT fit
(227 + 2·20 = 267 > 247), but one record does. -/
def lasDemoBytes : List ℕ :=
  [76, 65, 83, 70] ++ List.replicate 92 0 ++ [227, 0, 0, 0] ++ [0, 0, 0, 0] ++
    [0] ++ [20, 0] ++ [2, 0, 0, 0] ++ List.replicate 20 0 ++
    f64one ++ f64one ++ f64one ++ List.replicate 24 0 ++ List.replicate 48 0 ++
    List.replicate 20 0

/-- Like `lasDemoBytes` but with a declared record stride of 0. -/
def lasZeroStrideBytes : List ℕ :=
  [76, 65, 83, 70] ++ List.replicate 92 0 ++ [227, 0, 0, 0] ++ [0, 0, 0, 0] ++
    [0] ++ [0, 0] ++ [2, 0, 0, 0] ++ List.replicate 20 0 ++
    f64one ++ f64one ++ f64one ++ List.replicate 24 0 ++ List.replicate 48 0 ++
    List.replicate 20 0

/-! ### C1 -/

/-- C1: for both binary decoders, a returned result has
`positions.length = 3 * acceptedPoints` with `acceptedPoints ≥ 1`; the
accepted records are exactly the walked records passing the
finiteness/magnitude check, truncated to the output capacity (an invalid
record is skipped, not fatal); every output coordinate is bounded by
`MAX_POINT_MAGNITUDE`; and if no walked record passes the check the decoder
returns `none`. -/
theorem C1_decode_result_invariants :
    (∀ (bytes : List ℕ) (h : Bool) (r : ParsedPointCloud),
        parsePointCloud bytes h = some r →
          r.positions.length = 3 * r.metadata.acceptedPoints ∧
          1 ≤ r.metadata.acceptedPoints ∧
          r.positions =
            flattenTriples ((pcValidRecords bytes h).take (pcSampledCount bytes h)) ∧
          ∀ q ∈ r.positions, |q| ≤ MAX_POINT_MAGNITUDE) ∧
    (∀ (bytes : List ℕ) (h : Bool), pcValidRecords bytes h = [] →
        parsePointCloud bytes h = none) ∧
    (∀ (bytes : List ℕ) (r : ParsedPointCloud),
        parseLasPointCloud bytes = some r →
          r.positions.length = 3 * r.metadata.acceptedPoints ∧
          1 ≤ r.metadata.acceptedPoints ∧
          r.positions =
            flattenTriples (((lasValidRecords bytes).take (lasSampledCount bytes)).map (·.1)) ∧
          ∀ q ∈ r.positions, |q| ≤ MAX_POINT_MAGNITUDE) ∧
    (∀ bytes : List ℕ, lasValidRecords bytes = [] → parseLasPointCloud bytes = none) := by
  refine ⟨?_, ?_, ?_, ?_⟩
  · intro bytes h r hp
    unfold parsePointCloud at hp
    split at hp
    · exact absurd hp (by simp)
    split at hp
    · exact absurd hp (by simp)
    split at hp
    · exact absurd hp (by simp)
    rename_i hlen
    cases hp
    refine ⟨?_, ?_, ?_, ?_⟩
    · exact flattenTriples_length _
    · show 1 ≤ (pcAccepted bytes h).length
      omega
    · rw [pcAccepted_eq]
    · intro q hq
      obtain ⟨p, hp, hcoord⟩ := mem_flattenTriples hq
      have hp' : p ∈ pcValidRecords bytes h := by
        rw [pcAccepted_eq] at hp
        exact List.take_subset _ _ hp
      obtain ⟨i, _, hread⟩ := List.mem_filterMap.mp hp'
      unfold pcRead at hread
      obtain ⟨h1, h2, h3⟩ :=
        readRecord_bounds (x := p.1) (y := p.2.1) (z := p.2.2) (by simpa using hread)
      rcases hcoord with hc | hc | hc <;> subst hc <;> assumption
  · intro bytes h hempty
    unfold parsePointCloud
    split
    · rfl
    split
    · rfl
    split
    · rfl
    rename_i hlen
    exfalso
    rw [pcAccepted_eq, hempty] at hlen
    simp at hlen
  · intro bytes r hp
    unfold parseLasPointCloud at hp
    iterate 5 (split at hp; · exact absurd hp (by simp))
    split at hp
    · exact absurd hp (by simp)
    rename_i hlen
    cases hp
    refine ⟨?_, ?_, ?_, ?_⟩
    · rw [flattenTriples_length, List.length_map]
    · show 1 ≤ (lasAccepted bytes).length
      omega
    · rw [lasAccepted_eq]
    · intro q hq
      obtain ⟨p, hp, hcoord⟩ := mem_flattenTriples hq
      obtain ⟨pc, hpc, hfst⟩ := List.mem_map.mp hp
      have hp' : pc ∈ lasValidRecords bytes := by
        rw [lasAccepted_eq] at hpc
        exact List.take_subset _ _ hpc
      obtain ⟨i, _, hread⟩ := List.mem_filterMap.mp hp'
      obtain ⟨h1, h2, h3⟩ := lasRead_bounds (p := pc.1) (c := pc.2) (by simpa using hread)
      subst hfst
      rcases hcoord with hc | hc | hc <;> subst hc <;> assumption
  · intro bytes hempty
    unfold parseLasPointCloud
    iterate 5 (split; · rfl)
    split
    · rfl
    rename_i hlen
    exfalso
    rw [lasAccepted_eq, hempty] at hlen
    simp at hlen

/-- Closed instance of C1 at concrete inputs: a 24-byte zero buffer for the
binary decoder and the demo LAS buffer for the LAS decoder. -/
theorem C1_decode_result_invariants_witness :
    (1 ≤ (PointCloudMetadata.mk 0 none 1 1 1 1 false 1).acceptedPoints) ∧
    ([(0 : ℚ), 0, 0].length =
      3 * (PointCloudMetadata.mk 227 (some 2) 1 1 0 0 false 1).acceptedPoints) := by
  constructor
  · exact (C1_decode_result_invariants.1 (List.replicate 24 0) false
      ⟨[0, 0, 0], none, ⟨0, none, 1, 1, 1, 1, false, 1⟩⟩
      (by with_unfolding_all decide)).2.1
  · exact (C1_decode_result_invariants.2.2.1 lasDemoBytes
      ⟨[0, 0, 0], none, ⟨227, some 2, 1, 1, 0, 0, false, 1⟩⟩
      (by with_unfolding_all decide)).1

/-! ### C4 -/

/-- C4 (as stated) is false: `lasDemoBytes` declares 2 records of stride 20
past offset 227, so the declared data region ends at 267, beyond the 247-byte
buffer — yet the decoder returns a result (clamped to the 1 record that
fits). -/
theorem C4_las_data_region_counterexample :
    getUint16LE lasDemoBytes 105 = 20 ∧
    getUint32LE lasDemoBytes 96 = 227 ∧
    getUint32LE lasDemoBytes 107 = 2 ∧
    lasDemoBytes.length = 247 ∧
    lasDemoBytes.length < 227 + 2 * 20 ∧
    parseLasPointCloud lasDemoBytes =
      some
        { positions := [0, 0, 0]
          colors := none
          metadata := ⟨227, some 2, 1, 1, 0, 0, false, 1⟩ } := by
  refine ⟨?_, ?_, ?_, ?_, ?_, ?_⟩ <;> with_unfolding_all decide

/-- C4 (amended): the LAS decoder fails when the stride is 0 or when not even
one record fits past `offsetToPointData`; a declared point count whose full
data region exceeds the buffer is instead clamped:
`recordCount = min(pointCount, floor((byteLength - offset) / stride))`. -/
theorem C4_las_header_guards_amended :
    (∀ bytes : List ℕ, lasStride bytes = 0 → parseLasPointCloud bytes = none) ∧
    (∀ bytes : List ℕ,
        bytes.length < lasOffsetToData bytes + lasStride bytes →
          parseLasPointCloud bytes = none) ∧
    (∀ (bytes : List ℕ) (r : ParsedPointCloud),
        parseLasPointCloud bytes = some r →
          r.metadata.recordCount =
            min (lasPointCount bytes)
              ((bytes.length - lasOffsetToData bytes) / lasStride bytes)) := by
  refine ⟨?_, ?_, ?_⟩
  · intro bytes h0
    unfold parseLasPointCloud
    split
    · rfl
    split
    · rfl
    rw [if_pos (Or.inl h0)]
  · intro bytes h0
    unfold parseLasPointCloud
    split
    · rfl
    split
    · rfl
    rw [if_pos (Or.inr h0)]
  · intro bytes r hp
    unfold parseLasPointCloud at hp
    iterate 5 (split at hp; · exact absurd hp (by simp))
    split at hp
    · exact absurd hp (by simp)
    cases hp
    show lasTotalRecords bytes = _
    rw [lasTotalRecords, lasAvailableRecords]

/-- Closed instance of the amended C4: a LAS header with stride 0 is
rejected. -/
theorem C4_las_header_guards_amended_witness :
    parseLasPointCloud lasZeroStrideBytes = none :=
  C4_las_header_guards_amended.1 lasZeroStrideBytes (by with_unfolding_all decide)

/-! ### C3 -/

/-- Indices visited by the format probe: up to `probeSamples ≤ 1000` records,
evenly spaced at `probeStride`. -/
def pcProbeWalk (bytes : List ℕ) (hasHeaderCount : Bool) : List ℕ :=
  walkIdx (fun i => decide (i < pcRecordCount bytes hasHeaderCount))
    (pcProbeStride bytes hasHeaderCount) (pcProbeSamples bytes hasHeaderCount) 0

/-- C3: the probe decodes each of at most 1000 evenly spaced sample records
both as three LE `f32`s and as three LE `i32 / 1000` values, counts the
samples valid under each interpretation (all coordinates finite and of
magnitude at most `1e7`), and the decoder uses integer mode if and only if
the integer count strictly exceeds the float count. -/
theorem C3_probe_statistical_tiebreak :
    ∀ (bytes : List ℕ) (h : Bool) (r : ParsedPointCloud),
      parsePointCloud bytes h = some r →
        r.metadata.probeFloatHits =
          (pcProbeWalk bytes h).countP
            (fun i => validFloatRec bytes ((pcHeader bytes h).1 + i * 24)) ∧
        r.metadata.probeIntHits =
          (pcProbeWalk bytes h).countP
            (fun i => validIntRec bytes ((pcHeader bytes h).1 + i * 24)) ∧
        (pcProbeWalk bytes h).length ≤ 1000 ∧
        r.metadata.usedIntegerMode =
          decide (r.metadata.probeFloatHits < r.metadata.probeIntHits) := by
  intro bytes h r hp
  unfold parsePointCloud at hp
  iterate 3 (split at hp; · exact absurd hp (by simp))
  cases hp
  have hprobe := probeLoop_eq
    (fun i => validFloatRec bytes ((pcHeader bytes h).1 + i * 24))
    (fun i => validIntRec bytes ((pcHeader bytes h).1 + i * 24))
    (fun i => decide (i < pcRecordCount bytes h))
    (pcProbeStride bytes h) (pcProbeSamples bytes h) 0
  refine ⟨?_, ?_, ?_, rfl⟩
  · show (pcProbe bytes h).1 = _
    rw [pcProbe, hprobe]
    simp [pcProbeWalk]
  · show (pcProbe bytes h).2 = _
    rw [pcProbe, hprobe]
    simp [pcProbeWalk]
  · calc (pcProbeWalk bytes h).length ≤ pcProbeSamples bytes h :=
        walkIdx_length_le _ _ _ _
    _ ≤ 1000 := min_le_left _ _

/-- Closed instance of C3 at the 24-byte zero buffer. -/
theorem C3_probe_statistical_tiebreak_witness :
    (PointCloudMetadata.mk 0 none 1 1 1 1 false 1).usedIntegerMode =
      decide ((PointCloudMetadata.mk 0 none 1 1 1 1 false 1).probeFloatHits <
        (PointCloudMetadata.mk 0 none 1 1 1 1 false 1).probeIntHits) :=
  (C3_probe_statistical_tiebreak (List.replicate 24 0) false
    ⟨[0, 0, 0], none, ⟨0, none, 1, 1, 1, 1, false, 1⟩⟩
    (by with_unfolding_all decide)).2.2.2

/-! ### C10 -/

/-- C10: a leading u32 candidate count of 0 is never accepted as a header
count, even with `hasHeaderCount` set: the header offset stays 0, no count is
declared, and the first 4 bytes are treated as record data (the record count
is taken over the whole buffer). -/
theorem C10_zero_header_count_rejected :
    ∀ bytes : List ℕ, 4 ≤ bytes.length → getUint32LE bytes 0 = 0 →
      pcHeader bytes true = (0, none) ∧
      pcRecordCount bytes true = bytes.length / 24 ∧
      ∀ r : ParsedPointCloud, parsePointCloud bytes true = some r →
        r.metadata.headerOffset = 0 ∧ r.metadata.declaredCount = none := by
  intro bytes hlen hzero
  have hhdr : pcHeader bytes true = (0, none) := by
    unfold pcHeader
    rw [if_pos ⟨rfl, hlen⟩, hzero]
    simp
  refine ⟨hhdr, ?_, ?_⟩
  · unfold pcRecordCount pcAvailableBytes
    rw [hhdr]
    simp
  · intro r hp
    unfold parsePointCloud at hp
    iterate 3 (split at hp; · exact absurd hp (by simp))
    cases hp
    exact ⟨congrArg Prod.fst hhdr, congrArg Prod.snd hhdr⟩

/-- Closed instance of C10 at a 24-byte zero buffer (whose first four bytes
read as the u32 candidate 0). -/
theorem C10_zero_header_count_rejected_witness :
    pcHeader (List.replicate 24 0) true = (0, none) :=
  (C10_zero_header_count_rejected (List.replicate 24 0) (by decide)
    (by with_unfolding_all decide)).1

/-! ### Vectors (exact-arithmetic model of `THREE.Vector3`) -/

@[ext]
structure Vec3 where
  x : ℚ
  y : ℚ
  z : ℚ
  deriving DecidableEq, Repr

def vadd (a b : Vec3) : Vec3 := ⟨a.x + b.x, a.y + b.y, a.z + b.z⟩

def vsub (a b : Vec3) : Vec3 := ⟨a.x - b.x, a.y - b.y, a.z - b.z⟩

/-- `Box3.getCenter`: the midpoint of two corners. -/
def vmid (a b : Vec3) : Vec3 :=
  ⟨(a.x + b.x) / 2, (a.y + b.y) / 2, (a.z + b.z) / 2⟩

def dotQ (a b : Vec3) : ℚ := a.x * b.x + a.y * b.y + a.z * b.z

/-- Squared length (`length()` is its square root; all comparisons against
positive constants are carried out on squares, which is equivalent). -/
def normSq (a : Vec3) : ℚ := dotQ a a

/-- `v.addScaledVector(d, s)`. -/
def addScaled (v d : Vec3) (s : ℚ) : Vec3 :=
  ⟨v.x + d.x * s, v.y + d.y * s, v.z + d.z * s⟩

theorem normSq_nonneg (a : Vec3) : 0 ≤ normSq a := by
  have hx := mul_self_nonneg a.x
  have hy := mul_self_nonneg a.y
  have hz := mul_self_nonneg a.z
  simp only [normSq, dotQ]
  linarith

theorem normSq_eq_zero_iff (a : Vec3) : normSq a = 0 ↔ a = ⟨0, 0, 0⟩ := by
  constructor
  · intro h
    have hx := mul_self_nonneg a.x
    have hy := mul_self_nonneg a.y
    have hz := mul_self_nonneg a.z
    simp only [normSq, dotQ] at h
    have hx0 : a.x * a.x = 0 := by linarith
    have hy0 : a.y * a.y = 0 := by linarith
    have hz0 : a.z * a.z = 0 := by linarith
    ext
    · exact mul_self_eq_zero.mp hx0
    · exact mul_self_eq_zero.mp hy0
    · exact mul_self_eq_zero.mp hz0
  · intro h
    rw [h]
    with_unfolding_all decide

theorem normSq_addScaled (pos dir : Vec3) (t : ℚ) :
    normSq (addScaled pos dir t) =
      normSq pos + 2 * t * dotQ pos dir + t ^ 2 * normSq dir := by
  simp only [normSq, dotQ, addScaled]
  ring

/-! ### Scroll zoom (`handleWheel`, viewer-controls.tsx lines 770–794) -/

def ZOOM_SPEED : ℚ := 1 / 500
def MIN_ZOOM_DISTANCE : ℚ := 1 / 2
def MAX_ZOOM_DISTANCE : ℚ := 800

/-- Squared length after `Vector3.setLength(L)`: three.js `normalize()`
divides by `length() || 1`, so the zero vector is left unchanged and any other
vector is rescaled to length `L`. -/
def setLengthNormSq (vsq L : ℚ) : ℚ := if vsq = 0 then 0 else L ^ 2

/-- Squared distance-from-origin of the camera after one wheel event.  `pos`
is the camera position, `dir` its forward view direction (the quaternion
applied to `(0,0,-1)`, a unit vector), `deltaY` the wheel delta.  The source's
`distance < MIN` / `distance > MAX` comparisons are carried out on squares. -/
def handleWheelDistSq (pos dir : Vec3) (deltaY : ℚ) : ℚ :=
  let delta := -deltaY * ZOOM_SPEED
  if delta = 0 then normSq pos
  else
    let next := addScaled pos dir delta
    if normSq next < MIN_ZOOM_DISTANCE ^ 2 then
      setLengthNormSq (normSq next) MIN_ZOOM_DISTANCE
    else if MAX_ZOOM_DISTANCE ^ 2 < normSq next then
      setLengthNormSq (normSq next) MAX_ZOOM_DISTANCE
    else normSq next


/-! ### C5 -/

/-- C5 (as stated) is false at two concrete inputs: a wheel event that moves
the camera exactly onto the origin leaves it at distance 0 (below
`MIN_ZOOM_DISTANCE`), and a large zoom-in delta overshoots the origin and is
clamped to `MAX_ZOOM_DISTANCE`, not `MIN_ZOOM_DISTANCE`. -/
theorem C5_zoom_clamp_counterexample :
    (handleWheelDistSq ⟨0, 0, 1⟩ ⟨0, 0, -1⟩ (-500) = 0 ∧
      normSq (⟨0, 0, -1⟩ : Vec3) = 1 ∧
      -(-500 : ℚ) * ZOOM_SPEED = 1 ∧
      (0 : ℚ) < MIN_ZOOM_DISTANCE ^ 2) ∧
    (handleWheelDistSq ⟨0, 0, 10⟩ ⟨0, 0, -1⟩ (-5000000) = MAX_ZOOM_DISTANCE ^ 2 ∧
      (0 : ℚ) < -(-5000000 : ℚ) * ZOOM_SPEED ∧
      MIN_ZOOM_DISTANCE ^ 2 ≠ MAX_ZOOM_DISTANCE ^ 2) := by
  refine ⟨⟨?_, ?_, ?_, ?_⟩, ⟨?_, ?_, ?_⟩⟩
  · with_unfolding_all decide
  · with_unfolding_all decide
  · with_unfolding_all decide
  · with_unfolding_all decide
  · unfold handleWheelDistSq
    norm_num [addScaled, normSq, dotQ, setLengthNormSq, ZOOM_SPEED,
      MIN_ZOOM_DISTANCE, MAX_ZOOM_DISTANCE]
  · norm_num [ZOOM_SPEED]
  · norm_num [MIN_ZOOM_DISTANCE, MAX_ZOOM_DISTANCE]

/-- C5 (amended): with a nonzero effective delta, the clamp guarantees a
resulting distance in `[MIN_ZOOM_DISTANCE, MAX_ZOOM_DISTANCE]` whenever the
moved position is not exactly the origin; a move landing exactly on the
origin stays there (distance 0); and every sufficiently large delta — of
either sign, so in particular every sufficiently large zoom-in — yields
distance exactly `MAX_ZOOM_DISTANCE`. -/
theorem C5_zoom_clamp_amended :
    (∀ (pos dir : Vec3) (deltaY : ℚ),
        -deltaY * ZOOM_SPEED ≠ 0 →
        addScaled pos dir (-deltaY * ZOOM_SPEED) ≠ ⟨0, 0, 0⟩ →
          MIN_ZOOM_DISTANCE ^ 2 ≤ handleWheelDistSq pos dir deltaY ∧
            handleWheelDistSq pos dir deltaY ≤ MAX_ZOOM_DISTANCE ^ 2) ∧
    (∀ (pos dir : Vec3) (deltaY : ℚ),
        -deltaY * ZOOM_SPEED ≠ 0 →
        addScaled pos dir (-deltaY * ZOOM_SPEED) = ⟨0, 0, 0⟩ →
          handleWheelDistSq pos dir deltaY = 0) ∧
    (∀ (pos dir : Vec3) (deltaY : ℚ), normSq dir = 1 →
        2 * |dotQ pos dir| + 1 ≤ |-deltaY * ZOOM_SPEED| →
        MAX_ZOOM_DISTANCE ^ 2 + 1 ≤ |-deltaY * ZOOM_SPEED| →
          handleWheelDistSq pos dir deltaY = MAX_ZOOM_DISTANCE ^ 2) := by
  refine ⟨?_, ?_, ?_⟩
  · intro pos dir deltaY hδ hnz
    have hnsq : normSq (addScaled pos dir (-deltaY * ZOOM_SPEED)) ≠ 0 :=
      fun h => hnz ((normSq_eq_zero_iff _).mp h)
    simp only [handleWheelDistSq]
    rw [if_neg hδ]
    split
    · rw [setLengthNormSq, if_neg hnsq]
      constructor
      · exact le_refl _
      · norm_num [MIN_ZOOM_DISTANCE, MAX_ZOOM_DISTANCE]
    · split
      · rw [setLengthNormSq, if_neg hnsq]
        constructor
        · norm_num [MIN_ZOOM_DISTANCE, MAX_ZOOM_DISTANCE]
        · exact le_refl _
      · rename_i h1 h2
        exact ⟨le_of_not_lt h1, le_of_not_lt h2⟩
  · intro pos dir deltaY hδ hz
    have hnsq : normSq (addScaled pos dir (-deltaY * ZOOM_SPEED)) = 0 :=
      (normSq_eq_zero_iff _).mpr hz
    simp only [handleWheelDistSq]
    rw [if_neg hδ, if_pos (by rw [hnsq]; norm_num [MIN_ZOOM_DISTANCE]),
      setLengthNormSq, if_pos hnsq]
  · intro pos dir deltaY hdir h1 h2
    have hδ : -deltaY * ZOOM_SPEED ≠ 0 := by
      intro h
      rw [h, abs_zero] at h2
      norm_num [MAX_ZOOM_DISTANCE] at h2
    have hbig : MAX_ZOOM_DISTANCE ^ 2 <
        normSq (addScaled pos dir (-deltaY * ZOOM_SPEED)) := by
      rw [normSq_addScaled, hdir]
      have hp := normSq_nonneg pos
      have habs : -(|-deltaY * ZOOM_SPEED| * |dotQ pos dir|) ≤
          -deltaY * ZOOM_SPEED * dotQ pos dir := by
        rw [← abs_mul]
        exact neg_abs_le _
      have hsq : (-deltaY * ZOOM_SPEED) ^ 2 = |-deltaY * ZOOM_SPEED| ^ 2 :=
        (sq_abs _).symm
      nlinarith [abs_nonneg (dotQ pos dir), abs_nonneg (-deltaY * ZOOM_SPEED)]
    simp only [handleWheelDistSq]
    rw [if_neg hδ, if_neg (by
        intro hcon
        have hlt : MIN_ZOOM_DISTANCE ^ 2 < MAX_ZOOM_DISTANCE ^ 2 := by
          norm_num [MIN_ZOOM_DISTANCE, MAX_ZOOM_DISTANCE]
        exact absurd hbig (not_lt_of_lt (lt_trans hcon hlt))),
      if_pos hbig, setLengthNormSq, if_neg (by
        intro hcon
        rw [hcon] at hbig
        norm_num [MAX_ZOOM_DISTANCE] at hbig)]

/-- Closed instance of the amended C5: a unit zoom-in from distance 2 lands at
distance 1, inside the clamp range. -/
theorem C5_zoom_clamp_amended_witness :
    MIN_ZOOM_DISTANCE ^ 2 ≤ handleWheelDistSq ⟨0, 0, 2⟩ ⟨0, 0, -1⟩ (-500) ∧
      handleWheelDistSq ⟨0, 0, 2⟩ ⟨0, 0, -1⟩ (-500) ≤ MAX_ZOOM_DISTANCE ^ 2 :=
  C5_zoom_clamp_amended.1 ⟨0, 0, 2⟩ ⟨0, 0, -1⟩ (-500)
    (by with_unfolding_all decide) (by with_unfolding_all decide)

/-! ### Per-frame velocity blend (`useFrame`, viewer-controls.tsx lines
1069–1103)

The movement-target computation upstream of the blend (normalising the held
direction and rotating it by yaw) involves square roots and trigonometry; the
blend itself is algebraic, so the embedded step takes the already-computed
`targetVelocity` as an input alongside the held-key flags. -/

def MOVE_SPEED : ℚ := 4
def ACCELERATION : ℚ := 14
def DECELERATION : ℚ := 10

structure Movement where
  forward : Bool
  backward : Bool
  left : Bool
  right : Bool
  up : Bool
  down : Bool
  deriving DecidableEq, Repr

/-- `THREE.MathUtils.lerp` (also `Vector3.lerp` componentwise). -/
def lerpQ (a b t : ℚ) : ℚ := a + (b - a) * t

def vlerp (a b : Vec3) (t : ℚ) : Vec3 :=
  ⟨lerpQ a.x b.x t, lerpQ a.y b.y t, lerpQ a.z b.z t⟩

/-- `const vertical = (movement.up ? 1 : 0) - (movement.down ? 1 : 0)`. -/
def verticalOf (m : Movement) : ℚ :=
  (if m.up then 1 else 0) - (if m.down then 1 else 0)

/-- One `useFrame` tick of the two velocity channels: the horizontal velocity
is lerped toward `targetVelocity` with factor `min(ACCELERATION*dt, 1)`
(unconditionally), and the vertical velocity toward `vertical * MOVE_SPEED`
with factor `min((vertical ≠ 0 ? ACCELERATION : DECELERATION) * dt, 1)`. -/
def frameVelocities (m : Movement) (targetVelocity velocity : Vec3)
    (verticalVelocity dt : ℚ) : Vec3 × ℚ :=
  (vlerp velocity targetVelocity (min (ACCELERATION * dt) 1),
    lerpQ verticalVelocity (verticalOf m * MOVE_SPEED)
      (min ((if verticalOf m ≠ 0 then ACCELERATION else DECELERATION) * dt) 1))

/-- The horizontal blend as the claim words it (for comparison with the
code): `ACCELERATION` while a horizontal direction is held, `DECELERATION`
otherwise. -/
def claimedHorizontalBlend (m : Movement) (targetVelocity velocity : Vec3)
    (dt : ℚ) : Vec3 :=
  vlerp velocity targetVelocity
    (min ((if m.forward ∨ m.backward ∨ m.left ∨ m.right then ACCELERATION
      else DECELERATION) * dt) 1)

/-! ### C6 -/

/-- C6 (as stated) is false: with no key held, the horizontal channel still
blends with `min(ACCELERATION*dt, 1)` — at `v = (1,0,0)`, `dt = 1/100` the
code yields `x = 1 - 0.14 = 0.86`, where the claimed `DECELERATION` blend
would yield `0.9`. -/
theorem C6_velocity_blend_counterexample :
    (frameVelocities ⟨false, false, false, false, false, false⟩ ⟨0, 0, 0⟩
        ⟨1, 0, 0⟩ 0 (1 / 100)).1 ≠
      claimedHorizontalBlend ⟨false, false, false, false, false, false⟩
        ⟨0, 0, 0⟩ ⟨1, 0, 0⟩ (1 / 100) ∧
    (frameVelocities ⟨false, false, false, false, false, false⟩ ⟨0, 0, 0⟩
        ⟨1, 0, 0⟩ 0 (1 / 100)).1 = ⟨43 / 50, 0, 0⟩ ∧
    claimedHorizontalBlend ⟨false, false, false, false, false, false⟩
      ⟨0, 0, 0⟩ ⟨1, 0, 0⟩ (1 / 100) = ⟨9 / 10, 0, 0⟩ := by
  refine ⟨?_, ?_, ?_⟩ <;> with_unfolding_all decide

/-- C6 (amended): the horizontal channel always blends with factor
`min(ACCELERATION*dt, 1)`, even when no movement direction is held (so a
released key decelerates horizontally at the `ACCELERATION` rate, target 0);
only the independent vertical channel switches to `DECELERATION`, and it does
so exactly when the net vertical intent is zero (`up = down`). -/
theorem C6_velocity_blend_amended :
    (∀ (m : Movement) (target v : Vec3) (vv dt : ℚ),
        (frameVelocities m target v vv dt).1 =
          vlerp v target (min (ACCELERATION * dt) 1)) ∧
    (∀ (m : Movement) (target v : Vec3) (vv dt : ℚ),
        (frameVelocities m target v vv dt).2 =
          lerpQ vv (verticalOf m * MOVE_SPEED)
            (min ((if verticalOf m ≠ 0 then ACCELERATION else DECELERATION) * dt) 1)) ∧
    (∀ m : Movement, verticalOf m ≠ 0 ↔ m.up ≠ m.down) ∧
    (∀ (m : Movement) (v : Vec3) (vv dt : ℚ),
        ((frameVelocities m ⟨0, 0, 0⟩ v vv dt).1).x =
          v.x * (1 - min (ACCELERATION * dt) 1)) := by
  refine ⟨fun m target v vv dt => rfl, fun m target v vv dt => rfl, ?_, ?_⟩
  · intro m
    rcases m with ⟨f, b, l, r, u, d⟩
    cases u <;> cases d <;> simp [verticalOf]
  · intro m v vv dt
    show lerpQ v.x 0 (min (ACCELERATION * dt) 1) = _
    rw [lerpQ]
    ring

/-! ### Rotation bookkeeping and recentering (`rotate` handler lines 674–694,
`recenterModel` lines 629–638) -/

/-- `THREE.MathUtils.degToRad(90)`. -/
noncomputable def ROTATION_RADIANS : ℝ := 90 * (Real.pi / 180)

/-- JavaScript `%` (remainder takes the dividend's sign; both uses here have
a nonnegative dividend and the positive divisor `Math.PI * 2`). -/
noncomputable def jsMod (a b : ℝ) : ℝ :=
  if 0 ≤ a then a - b * ⌊a / b⌋ else -(-a - b * ⌊-a / b⌋)

/-- One `rotate(axis)` call's bookkeeping update:
`rot[axis] = (rot[axis] + ROTATION_RADIANS) % (Math.PI * 2)`. -/
noncomputable def rotateBookkeeping (r : ℝ) : ℝ :=
  jsMod (r + ROTATION_RADIANS) (Real.pi * 2)

/-- The loaded object as the normalizer sees it: `localMin`/`localMax` are the
axis-aligned bounding box of the object's transformed geometry relative to
`position` (so `Box3.setFromObject` yields `local + position`); `scale` is the
uniform scale factor.  Rotation changes the local box but recentering does
not. -/
@[ext]
structure Object3D where
  position : Vec3
  scale : ℚ
  localMin : Vec3
  localMax : Vec3
  deriving DecidableEq, Repr

/-- `recenterModel(object)`: subtract the world-box center from the position,
recompute the box, then center on X/Z and snap the box minimum Y to 0.  The
scale is untouched. -/
def recenterModel (o : Object3D) : Object3D :=
  let boxMin := vadd o.localMin o.position
  let boxMax := vadd o.localMax o.position
  let center := vmid boxMin boxMax
  let p1 := vsub o.position center
  let aMin := vadd o.localMin p1
  let aMax := vadd o.localMax p1
  let aCenter := vmid aMin aMax
  { o with position := ⟨p1.x - aCenter.x, p1.y - aMin.y, p1.z - aCenter.z⟩ }

/-- Minimum world-space Y of the object's bounding box. -/
def worldMinY (o : Object3D) : ℚ := o.localMin.y + o.position.y

theorem ROTATION_RADIANS_eq : ROTATION_RADIANS = Real.pi / 2 := by
  rw [ROTATION_RADIANS]
  ring

theorem jsMod_nonneg (a b : ℝ) (ha : 0 ≤ a) : jsMod a b = a - b * ⌊a / b⌋ :=
  if_pos ha

/-! ### C7 -/

/-- C7: starting from the bookkeeping value 0 a fresh object carries, four
`rotate(axis)` calls about one axis (each adding 90° and reducing mod 2π)
return the bookkeeping to exactly 0; and after every `recenterModel` call the
object's bounding-box minimum Y is 0 (it rests on the ground plane). -/
theorem C7_four_rotations_identity :
    rotateBookkeeping (rotateBookkeeping (rotateBookkeeping (rotateBookkeeping 0))) = 0 ∧
    ∀ o : Object3D, worldMinY (recenterModel o) = 0 := by
  constructor
  · have hπ : (0 : ℝ) < Real.pi := Real.pi_pos
    have h2π : (0 : ℝ) < Real.pi * 2 := by linarith
    have r1 : rotateBookkeeping 0 = Real.pi / 2 := by
      rw [rotateBookkeeping, ROTATION_RADIANS_eq, zero_add,
        jsMod_nonneg _ _ (by linarith)]
      rw [show Real.pi / 2 / (Real.pi * 2) = 1 / 4 by
        field_simp
        ring]
      norm_num
    have r2 : rotateBookkeeping (Real.pi / 2) = Real.pi := by
      rw [rotateBookkeeping, ROTATION_RADIANS_eq,
        show Real.pi / 2 + Real.pi / 2 = Real.pi by ring,
        jsMod_nonneg _ _ (by linarith)]
      rw [show Real.pi / (Real.pi * 2) = 1 / 2 by
        field_simp]
      norm_num
    have r3 : rotateBookkeeping Real.pi = Real.pi + Real.pi / 2 := by
      rw [rotateBookkeeping, ROTATION_RADIANS_eq,
        jsMod_nonneg _ _ (by linarith)]
      rw [show (Real.pi + Real.pi / 2) / (Real.pi * 2) = 3 / 4 by
        field_simp
        ring]
      norm_num
    have r4 : rotateBookkeeping (Real.pi + Real.pi / 2) = 0 := by
      rw [rotateBookkeeping, ROTATION_RADIANS_eq,
        show Real.pi + Real.pi / 2 + Real.pi / 2 = Real.pi * 2 by ring,
        jsMod_nonneg _ _ (by linarith)]
      rw [div_self (by linarith : Real.pi * 2 ≠ 0)]
      norm_num
    rw [r1, r2, r3, r4]
  · intro o
    show o.localMin.y + ((recenterModel o).position).y = 0
    simp only [recenterModel, vadd, vsub, vmid]
    ring

/-! ### C8 -/

/-- C8: `recenterModel` never alters the object's scale, and it is idempotent
— the recentred position depends only on the object's local bounding box, so
applying it twice gives the same object as applying it once. -/
theorem C8_recenter_scale_idempotent :
    ∀ o : Object3D,
      (recenterModel o).scale = o.scale ∧
      recenterModel (recenterModel o) = recenterModel o := by
  intro o
  refine ⟨rfl, ?_⟩
  ext <;> simp only [recenterModel, vadd, vsub, vmid] <;> ring

/-! ### Pointer-look state machine (`handlePointerMove` and friends,
viewer-controls.tsx lines 709–767, `resetCamera` lines 648–668) -/

noncomputable def PITCH_LIMIT : ℝ := Real.pi / 2 - 0.05

noncomputable def LOOK_SENSITIVITY : ℝ := 0.003

/-- `THREE.MathUtils.clamp(value, min, max) = Math.max(min, Math.min(value,
max))`. -/
noncomputable def clamp (value lo hi : ℝ) : ℝ := max lo (min value hi)

structure LookState where
  yaw : ℝ
  pitch : ℝ
  active : Bool
  lastX : ℝ
  lastY : ℝ

/-- `handlePointerMove`: ignored unless a drag is active; otherwise updates
the last pointer position, turns the yaw, and clamps the new pitch into
`[-PITCH_LIMIT, PITCH_LIMIT]`. -/
noncomputable def handlePointerMove (s : LookState) (x y : ℝ) : LookState :=
  if s.active then
    { s with
      lastX := x
      lastY := y
      yaw := s.yaw - (x - s.lastX) * LOOK_SENSITIVITY
      pitch := clamp (s.pitch - (y - s.lastY) * LOOK_SENSITIVITY)
        (-PITCH_LIMIT) PITCH_LIMIT }
  else s

/-- `resetCamera`'s pitch: the camera is snapped to (5,5,5) looking at the
origin, whose YXZ-euler pitch is `-asin(1/√3)` (the view direction drops by
`1/√3` of its length). -/
noncomputable def resetPitch : ℝ := -Real.arcsin (1 / Real.sqrt 3)

inductive LookEvent where
  | down (x y : ℝ)
  | move (x y : ℝ)
  | up
  | leave
  | reset

/-- Dispatch of the pointer listeners (`pointerdown` starts a drag,
`pointerup`/`pointerleave` end it) plus `resetCamera` (its other effects —
yaw, velocities, flags — do not touch the pitch beyond setting it to
`resetPitch`). -/
noncomputable def lookStep (s : LookState) : LookEvent → LookState
  | .down x y => { s with active := true, lastX := x, lastY := y }
  | .move x y => handlePointerMove s x y
  | .up => { s with active := false }
  | .leave => { s with active := false }
  | .reset => { s with pitch := resetPitch }

noncomputable def lookRun (s : LookState) (evts : List LookEvent) : LookState :=
  evts.foldl lookStep s

theorem PITCH_LIMIT_pos : 0 < PITCH_LIMIT := by
  have h := Real.pi_gt_three
  rw [PITCH_LIMIT]
  norm_num
  linarith

theorem abs_clamp_le (v L : ℝ) (hL : 0 ≤ L) : |clamp v (-L) L| ≤ L := by
  rw [abs_le, clamp]
  exact ⟨le_max_left _ _, max_le (by linarith) (min_le_right _ _)⟩

theorem abs_resetPitch_le : |resetPitch| ≤ PITCH_LIMIT := by
  have hπ := Real.pi_gt_three
  have h17 : (17 / 10 : ℝ) ≤ Real.sqrt 3 := by
    rw [Real.le_sqrt' (by norm_num)]
    norm_num
  have hx0 : (0 : ℝ) ≤ 1 / Real.sqrt 3 := by positivity
  have hsin : (1 : ℝ) / Real.sqrt 3 ≤ Real.sin (Real.pi / 2 - 0.05) := by
    rw [Real.sin_pi_div_two_sub]
    calc (1 : ℝ) / Real.sqrt 3 ≤ 1 / (17 / 10) :=
          one_div_le_one_div_of_le (by norm_num) h17
      _ ≤ 1 - (0.05 : ℝ) ^ 2 / 2 := by norm_num
      _ ≤ Real.cos 0.05 := Real.one_sub_sq_div_two_le_cos
  have harcsin : Real.arcsin (1 / Real.sqrt 3) ≤ Real.pi / 2 - 0.05 := by
    have hmono := Real.monotone_arcsin hsin
    rwa [Real.arcsin_sin (by linarith) (by linarith)] at hmono
  rw [resetPitch, abs_neg, abs_of_nonneg (Real.arcsin_nonneg.mpr hx0), PITCH_LIMIT]
  exact harcsin

/-! ### C9 -/

/-- C9: from any state with pitch in `[-PITCH_LIMIT, PITCH_LIMIT]`, any
sequence of pointer events (drags of arbitrary magnitude, presses, releases)
and resets leaves the pitch within `[-PITCH_LIMIT, PITCH_LIMIT]`, where
`PITCH_LIMIT = π/2 - 0.05`. -/
theorem C9_pitch_always_clamped :
    ∀ (s : LookState) (evts : List LookEvent),
      |s.pitch| ≤ PITCH_LIMIT → |(lookRun s evts).pitch| ≤ PITCH_LIMIT := by
  intro s evts
  induction evts generalizing s with
  | nil => exact fun h => h
  | cons e evts ih =>
    intro h
    have hstep : lookRun s (e :: evts) = lookRun (lookStep s e) evts := rfl
    rw [hstep]
    refine ih (lookStep s e) ?_
    cases e with
    | down x y => exact h
    | up => exact h
    | leave => exact h
    | reset => exact abs_resetPitch_le
    | move x y =>
      show |(handlePointerMove s x y).pitch| ≤ PITCH_LIMIT
      rw [handlePointerMove]
      split
      · exact abs_clamp_le _ _ (le_of_lt PITCH_LIMIT_pos)
      · exact h

/-- Closed instance of C9: a huge single drag from a level camera stays within
the pitch limit. -/
theorem C9_pitch_always_clamped_witness :
    |(lookRun ⟨0, 0, true, 0, 0⟩ [LookEvent.move 1000000 1000000]).pitch| ≤
      PITCH_LIMIT :=
  C9_pitch_always_clamped ⟨0, 0, true, 0, 0⟩ [LookEvent.move 1000000 1000000]
    (by
      show |(0 : ℝ)| ≤ PITCH_LIMIT
      rw [abs_zero]
      exact le_of_lt PITCH_LIMIT_pos)

end Viewer
